import Mathlib

/-!
Shallow embedding of the exam-delivery and scoring logic of the
MOCKGULFMED repository (client/src/utils/supabaseQueries.js, the
admin-users HTTP handler, and the ExamResults page), together with
proofs of the behavioural properties stated in the specification.

Database reads (Supabase queries) are modelled as explicit parameters:
each embedded operation receives the rows the corresponding query would
have returned.  Database writes are modelled as values describing the
row that would be inserted or updated.  `Math.random()` draws are
modelled as an explicit stream `rand : Nat -> Nat`; the JS expression
`Math.floor(Math.random() * (i + 1))`, a uniform draw from {0, ..., i},
becomes `rand k % (i + 1)` for the k-th draw.
-/

namespace MockGulfMed

/-- The four option labels of a question (invariant: a question has exactly
four options and a correct answer in {A, B, C, D}). -/
inductive Label where
  | A | B | C | D
  deriving DecidableEq, Repr

instance : Fintype Label where
  elems := {Label.A, Label.B, Label.C, Label.D}
  complete := by
    intro x
    cases x <;> simp

/-- A question row as returned by the `questions` select in `getExam` /
`submitExam` (id, question text, four option texts, correct answer,
explanation). -/
structure Question where
  id : String
  question : String
  option_a : String
  option_b : String
  option_c : String
  option_d : String
  correct_answer : Label
  explanation : String
  deriving DecidableEq, Repr

/-- A JS-object–like string map, newest assignment first.  A key bound to
`none` models a key explicitly set to `null`; an absent key models
`undefined` lookup.  Used for an attempt's `answers` map (question id to
submitted label). -/
def AnswerMap := List (String × Option Label)

instance : DecidableEq AnswerMap := by
  unfold AnswerMap
  infer_instance

instance : Repr AnswerMap := by
  unfold AnswerMap
  infer_instance

/-- JS property lookup `m[k]`: the most recent assignment wins;
`none` = the key is absent (`undefined`). -/
def jsGet (m : AnswerMap) (k : String) : Option (Option Label) :=
  (m.find? (fun p => p.1 = k)).map Prod.snd

/-- `Object.keys(m)`: every key that occurs in the object, values ignored. -/
def jsKeys (m : AnswerMap) : List String :=
  (m.map Prod.fst).dedup

/- ### Fisher-Yates shuffle (getExam, lines 971-974 and 1005-1008)

`for (let i = n - 1; i > 0; i--) { j = floor(random()*(i+1)); swap(i, j) }`
The in-place destructuring swap reads both elements before writing. -/

/-- One JS destructuring swap `[l[i], l[j]] = [l[j], l[i]]`; out-of-range
indices never occur in the source loop (there `j <= i < l.length`). -/
def swap {α : Type} (l : List α) (i j : Nat) : List α :=
  match l[i]?, l[j]? with
  | some a, some b => (l.set i b).set j a
  | _, _ => l

/-- The loop body of the shuffle, from index `i` down to 1: `fyFrom rand i l`
performs the swaps for indices `i, i-1, ..., 1`. -/
def fyFrom {α : Type} (rand : Nat → Nat) : Nat → List α → List α
  | 0, l => l
  | i + 1, l => fyFrom rand i (swap l (i + 1) (rand (i + 1) % (i + 2)))

/-- Uniform Fisher-Yates shuffle of a list, with the random draws supplied
as the stream `rand` (draw for loop index `i` is `rand i % (i+1)`). -/
def fisherYates {α : Type} (rand : Nat → Nat) (l : List α) : List α :=
  fyFrom rand (l.length - 1) l

/- ### getExam (supabaseQueries.js, lines 886-1099)

The Supabase reads (exam row, prior attempts, profile, usage row) are
parameters; the access-grant check and the exam/profile fetches that
precede line 936 are authorization plumbing outside the properties
below, so the embedding starts at the fetched data. -/

/-- JS object lookup on a `List (key × value)` association list that keeps the
newest assignment first; `none` models `undefined` (absent key). -/
def jsLookup {κ ν : Type} [DecidableEq κ] (m : List (κ × ν)) (k : κ) :
    Option ν :=
  (m.find? (fun p => decide (p.1 = k))).map Prod.snd

/-- `answeredQuestionIds` (lines 948-958): every key of every prior attempt's
`answers` object (a `null` attempt or non-object `answers` contributes
nothing); values are NOT consulted. -/
def answeredIds (previousAttempts : List (Option AnswerMap)) : List String :=
  previousAttempts.foldl
    (fun s att =>
      match att with
      | some answers => s ++ jsKeys answers
      | none => s)
    []

/-- `availableQuestions` before shuffling (lines 960-963): the pool minus the
already-answered ids. -/
def availableQuestions (pool : List Question)
    (previousAttempts : List (Option AnswerMap)) : List Question :=
  pool.filter (fun q => !(answeredIds previousAttempts).contains q.id)

/-- A question as returned by `getExam`, with shuffled option texts, the
position→label map, its inverse, and the shuffled position of the correct
answer (lines 1041-1051). -/
structure RQuestion where
  id : String
  question : String
  option_a : String
  option_b : String
  option_c : String
  option_d : String
  correct_answer : Label
  explanation : String
  optionMapping : List (Nat × Label)
  reverseMapping : List (Label × Nat)
  randomizedCorrectAnswer : Option Nat
  deriving DecidableEq, Repr

/-- The `options.forEach` loop building `optionMapping` / `reverseMapping`
(lines 1023-1030) from the shuffled labels, later writes shadowing earlier
ones. -/
def buildMappings (labels : List Label) :
    List (Nat × Label) × List (Label × Nat) :=
  labels.enum.foldl
    (fun acc p => ((p.1, p.2) :: acc.1, (p.2, p.1) :: acc.2))
    ([], [])

/-- Option randomization for one question (lines 977-1052).  The four options
carry their original labels; they are Fisher-Yates shuffled, the two maps
are built, and the question is returned with the texts in shuffled order.
The null-option validations (979-1019) cannot fire here because option
texts are total strings. -/
def randomizeQuestion (rand : Nat → Nat) (q : Question) : RQuestion :=
  let options : List (Label × String) :=
    [(Label.A, q.option_a), (Label.B, q.option_b),
     (Label.C, q.option_c), (Label.D, q.option_d)]
  let shuffled := fisherYates rand options
  let maps := buildMappings (shuffled.map Prod.fst)
  { id := q.id
    question := q.question
    option_a := ((shuffled[0]?).map Prod.snd).getD ""
    option_b := ((shuffled[1]?).map Prod.snd).getD ""
    option_c := ((shuffled[2]?).map Prod.snd).getD ""
    option_d := ((shuffled[3]?).map Prod.snd).getD ""
    correct_answer := q.correct_answer
    explanation := q.explanation
    optionMapping := maps.1
    reverseMapping := maps.2
    randomizedCorrectAnswer := jsLookup maps.2 q.correct_answer }

/-- Lines 970-1052 as one step: Fisher-Yates shuffle the candidate list,
then option-randomize each question (each question index gets its own
slice of the random stream). -/
def deliveredQuestions (qrand : Nat → Nat) (orand : Nat → Nat → Nat)
    (available : List Question) : List RQuestion :=
  (fisherYates qrand available).enum.map
    (fun p => randomizeQuestion (orand p.1) p.2)

/-- The `dailyUsage` record returned alongside the questions
(lines 1090-1097). -/
structure DailyUsageInfo where
  mcqCount : Nat
  limit : Option Int
  remaining : Option Int
  deriving DecidableEq, Repr

/-- `getExam`'s successful return value (lines 1088-1098). -/
structure GetExamResult where
  questions : List RQuestion
  dailyUsage : DailyUsageInfo
  deriving DecidableEq, Repr

/-- `getExam` from the no-questions check (line 936) to the return
(line 1098).  Parameters: the exam's question rows, the prior attempts'
`answers` columns (a row whose `answers` is `null` is `none`), the user's
`daily_mcq_limit`, today's usage row (`mcq_count`), the question-shuffle
random stream, and one option-shuffle random stream per question index.
The single sequential `Math.random()` stream of the source is split into
one stream per consumer, an equivalent presentation of arbitrary draws. -/
def getExam (pool : List Question) (previousAttempts : List (Option AnswerMap))
    (daily_mcq_limit : Option Int) (usage : Option Nat)
    (qrand : Nat → Nat) (orand : Nat → Nat → Nat) :
    Except String GetExamResult :=
  if pool.isEmpty then
    .error "You have no access to this exam. Please contact your representative."
  else
    let available := availableQuestions pool previousAttempts
    if available.isEmpty then
      .error "You have already completed all available questions for this exam."
    else
      let randomized := deliveredQuestions qrand orand available
      match daily_mcq_limit with
      | none =>
          .ok { questions := randomized
                dailyUsage := { mcqCount := 0, limit := none, remaining := none } }
      | some limit =>
          let used : Int := (usage.getD 0 : Nat)
          let remaining : Int := limit - used
          if remaining ≤ 0 then
            .error ("Daily MCQ limit reached. You have used all " ++ toString limit
              ++ " MCQs for today.")
          else
            let qs :=
              if remaining < (randomized.length : Int) then
                randomized.take remaining.toNat
              else randomized
            .ok { questions := qs
                  dailyUsage := { mcqCount := usage.getD 0, limit := some limit
                                  remaining := some remaining } }

/- ### submitExam (supabaseQueries.js, lines 1262-1371) -/

/-- The `exam_attempts` row inserted by `submitExam` (lines 1297-1307). -/
structure AttemptRow where
  user_id : String
  exam_id : String
  score : Rat
  total_questions : Nat
  correct_answers : Nat
  time_spent : Int
  answers : AnswerMap
  deriving DecidableEq, Repr

/-- The write performed against `daily_mcq_usage` (lines 1325-1336): update
today's row to the new count, or insert a fresh row. -/
inductive UsageWrite where
  | update (newCount : Nat)
  | insert (count : Nat)
  deriving DecidableEq, Repr

/-- One entry of the `results` array (lines 1339-1346). -/
structure QuestionResult where
  questionId : String
  question : String
  userAnswer : Option Label
  correctAnswer : Label
  explanation : String
  isCorrect : Bool
  deriving DecidableEq, Repr

/-- The `batchInfo` object (lines 1350-1357), present only when the user's
daily limit is truthy (non-null and non-zero). -/
structure BatchInfo where
  dailyLimit : Int
  answeredCount : Nat
  correctCount : Nat
  percentage : Rat
  deriving DecidableEq, Repr

/-- `submitExam`'s return value (lines 1359-1370) together with the usage
write it performed. -/
structure SubmitResult where
  attempt : AttemptRow
  usageWrite : UsageWrite
  results : List QuestionResult
  score : Rat
  correctAnswers : Nat
  totalQuestions : Nat
  totalExamQuestions : Nat
  answeredCount : Nat
  dailyLimit : Option Int
  batchInfo : Option BatchInfo
  overallPercentage : Rat
  deriving DecidableEq, Repr

/-- `answers[q.id] !== undefined && answers[q.id] !== null` (line 1278). -/
def hasAnswer (answers : AnswerMap) (id : String) : Bool :=
  match jsGet answers id with
  | some (some _) => true
  | _ => false

/-- `answers[q.id] === q.correct_answer` (lines 1281 and 1345): only a
present, non-null label can compare equal to the stored correct label. -/
def answerMatches (answers : AnswerMap) (q : Question) : Bool :=
  decide (jsGet answers q.id = some (some q.correct_answer))

/-- `submitExam` from the score computation (line 1276) to the return
(line 1370).  Parameters: the exam's question rows, the submitted answers
map, `timeSpent`, the profile's `daily_mcq_limit`, and today's existing
usage row if any.  Divisions by zero (JS `NaN`, e.g. `score` on an empty
pool) follow Lean's `x / 0 = 0` convention; the claims below guard or
avoid those points. -/
def submitExam (examId userId : String) (questions : List Question)
    (answers : AnswerMap) (timeSpent : Int) (daily_mcq_limit : Option Int)
    (existingUsage : Option Nat) : SubmitResult :=
  let totalQuestions := questions.length
  let answeredCount := questions.countP (fun q => hasAnswer answers q.id)
  let correctAnswers := questions.countP (fun q => answerMatches answers q)
  let score : Rat := (correctAnswers : Rat) / (totalQuestions : Rat) * 100
  let attempt : AttemptRow :=
    { user_id := userId, exam_id := examId, score
      total_questions := totalQuestions, correct_answers := correctAnswers
      time_spent := timeSpent, answers := answers }
  let usageWrite :=
    match existingUsage with
    | some c => UsageWrite.update (c + answeredCount)
    | none => UsageWrite.insert answeredCount
  let results := questions.map (fun q =>
    { questionId := q.id
      question := q.question
      userAnswer :=
        match jsGet answers q.id with
        | some (some l) => some l
        | _ => none
      correctAnswer := q.correct_answer
      explanation := q.explanation
      isCorrect := answerMatches answers q : QuestionResult })
  let totalExamQuestions := totalQuestions
  let overallPercentage : Rat :=
    if totalExamQuestions > 0 then
      (correctAnswers : Rat) / (totalExamQuestions : Rat) * 100
    else 0
  let batchInfo : Option BatchInfo :=
    match daily_mcq_limit with
    | some l =>
        if l ≠ 0 then
          some { dailyLimit := l, answeredCount := answeredCount
                 correctCount := correctAnswers
                 percentage := min ((correctAnswers : Rat) / (l : Rat) * 100) 100 }
        else none
    | none => none
  { attempt := attempt, usageWrite := usageWrite, results := results
    score := score, correctAnswers := correctAnswers
    totalQuestions := totalQuestions, totalExamQuestions := totalExamQuestions
    answeredCount := answeredCount, dailyLimit := daily_mcq_limit
    batchInfo := batchInfo, overallPercentage := overallPercentage }

/- ### performSubmit's answer remapping (supabaseQueries.js, lines 1714-1734)

The UI's `answers` state maps a question id to the selected shuffled
position (0-3); before submission each selection is decoded through the
question's `optionMapping` into an original label. -/

/-- One iteration of the `mappedAnswers` loop: if a position was selected
for this question, store `optionMapping[position]` under the trimmed
question id; a position outside the mapping stores `undefined` (here
`none`).  The `else if` fallback for a missing `optionMapping` is
unreachable for questions built by `getExam`. -/
def mapAnswersStep (positional : List (String × Nat)) (m : AnswerMap)
    (q : RQuestion) : AnswerMap :=
  match jsLookup positional q.id with
  | some p => (q.id.trim, jsLookup q.optionMapping p) :: m
  | none => m

/-- `mappedAnswers`: the loop over the delivered questions. -/
def mapAnswers (questions : List RQuestion)
    (positional : List (String × Nat)) : AnswerMap :=
  questions.foldl (mapAnswersStep positional) []

/- ### The three-metric system (submitExam, ExamResults.jsx)

`ExamResults` (src/unnamed/part_004) renders `mainScore` (correct over the
daily limit), `attemptOverview` (cumulative correct over cumulative
answered across all attempts) and `overallResult` (correct over the pool
size), and uses `mainScore` when non-null, else `attemptOverview`, as the
primary readiness metric (part_004, line 54). -/

/-- Modelled from the spec: the producer of the cumulative "Attempt
Overview" percentage is missing from the sources (ExamResults only
consumes `cumulativeCorrectAnswers` / `cumulativeAnsweredQuestions`); the
spec words it as "cumulative-correct-over-cumulative-answered (across all
attempts)". -/
def attemptOverview (cumulativeCorrect cumulativeAnswered : Nat) : Rat :=
  (cumulativeCorrect : Rat) / (cumulativeAnswered : Rat) * 100

/-- `normalizeAttempt`'s `dailyLimitPercentage` (supabaseQueries.js,
lines 1395-1396): `dailyLimit && dailyLimit > 0` — truthy and positive,
which for an integer is just positivity — guards the capped
correct-over-quota percentage `Math.min((correctCount/dailyLimit)*100,
100)`, else `null`.  This is the in-source producer of the
correct-over-daily-quota metric that `ExamResults` renders as the main
score. -/
def dailyLimitPercentage (dailyLimit : Option Int) (correctCount : Nat) :
    Option Rat :=
  match dailyLimit with
  | some l =>
      if 0 < l then some (min ((correctCount : Rat) / (l : Rat) * 100) 100)
      else none
  | none => none

/-- `mainScore !== null ? mainScore : attemptOverview`
(src/unnamed/part_004, line 54). -/
def primaryMetric (main : Option Rat) (overview : Rat) : Rat :=
  match main with
  | some m => m
  | none => overview

/- ### The privileged admin-users HTTP handler
(src/client/src/components/Layout.jsx, admin-users API section)

The identity provider and the store are modelled as an environment: token
resolution and role lookup are functions, and the outcome of each store
call is an explicit field.  The handler's response is its status, its
JSON body, and the list of account mutations it performed. -/

/-- HTTP method of the request. -/
inductive Method where
  | OPTIONS | POST | PUT | DELETE
  | other (name : String)
  deriving DecidableEq, Repr

/-- The JSON request body, with `undefined` fields as `none`.
`dailyMcqLimit` is `some` only when a number was sent
(`typeof dailyMcqLimit === 'number'`), `isActive` mirrors the raw JS value
(`none` = absent/non-boolean). -/
structure Payload where
  id : Option String
  email : Option String
  password : Option String
  fullName : Option String
  professionId : Option String
  healthAuthorityId : Option String
  dailyMcqLimit : Option Int
  isActive : Option Bool
  deriving DecidableEq, Repr

/-- An incoming request: method, `Authorization` header, body. -/
structure AdminReq where
  method : Method
  authorization : Option String
  body : Payload
  deriving Repr

/-- An account mutation performed against the identity provider / store. -/
inductive Mut where
  | createAuthUser (email : String)
  | insertProfile (id : String)
  | updatePassword (id : String)
  | updateProfile (id : String)
  | deleteAuthUser (id : String)
  deriving DecidableEq, Repr

/-- The response body: `{}` (OPTIONS), `{data: ...}`, or `{error: string}`. -/
inductive Body where
  | empty
  | data (payload : String)
  | error (msg : String)
  deriving DecidableEq, Repr

/-- A handler response: status code, body, mutations performed. -/
structure HttpResp where
  status : Nat
  body : Body
  muts : List Mut
  deriving DecidableEq, Repr

/-- The environment: how the identity provider resolves tokens, the role
column of each profile, and the outcome of each store call.  An
`Option String` error field is `some msg` when the corresponding call
fails with message `msg`. -/
structure Env where
  tokenUser : String → Option String
  roleOf : String → Option String
  createdUserId : String
  createAuthError : Option String
  insertProfileError : Option String
  passwordError : Option String
  updateProfileError : Option String
  deleteError : Option String

/-- JS truthiness of an optional string: absent, and the empty string, are
falsy. -/
def truthyS (s : Option String) : Bool :=
  match s with
  | some v => !v.isEmpty
  | none => false

/-- `err.message || fallback`. -/
def errOr (msg fallback : String) : String :=
  if msg.isEmpty then fallback else msg

/-- `getTokenFromRequest` (Layout.jsx): take the `Authorization` header (or
`''`), require the `Bearer ` prefix, strip it, trim. -/
def getTokenFromRequest (authorization : Option String) : Option String :=
  let header := authorization.getD ""
  if header.startsWith "Bearer " then some ((header.drop 7).trim)
  else none

/-- `ensureAdmin`: resolve the token to a user, then require the profile's
role to be `ADMIN`; returns the admin's user id or an error message. -/
def ensureAdmin (accessToken : Option String) (env : Env) :
    Except String String :=
  match accessToken with
  | none => .error "Missing access token"
  | some t =>
      match env.tokenUser t with
      | none => .error "Invalid session token"
      | some userId =>
          match env.roleOf userId with
          | some r =>
              if r = "ADMIN" then .ok userId
              else .error "Admin privileges required"
          | none => .error "Admin privileges required"

/-- `createUser`: validate the payload, create the auth user, insert the
profile; on profile failure the just-created auth user is deleted again
(best-effort cleanup). -/
def createUser (env : Env) (payload : Payload) : HttpResp :=
  if !(truthyS payload.email && truthyS payload.password
      && truthyS payload.fullName) then
    { status := 400, body := .error "email, password and fullName are required"
      muts := [] }
  else
    let email := (payload.email).getD ""
    match env.createAuthError with
    | some msg =>
        { status := 400, body := .error (errOr msg "Failed to create auth user")
          muts := [] }
    | none =>
        let uid := env.createdUserId
        match env.insertProfileError with
        | some msg =>
            { status := 400
              body := .error (errOr msg "Failed to create profile")
              muts := [.createAuthUser email, .deleteAuthUser uid] }
        | none =>
            { status := 200, body := .data uid
              muts := [.createAuthUser email, .insertProfile uid] }

/-- `updateUser`: require an id, update the password when one is given, then
update the profile row. -/
def updateUser (env : Env) (payload : Payload) : HttpResp :=
  if !(truthyS payload.id) then
    { status := 400, body := .error "id is required", muts := [] }
  else
    let uid := (payload.id).getD ""
    if truthyS payload.password then
      match env.passwordError with
      | some msg =>
          { status := 400
            body := .error (errOr msg "Failed to update password")
            muts := [] }
      | none =>
          match env.updateProfileError with
          | some msg =>
              { status := 400
                body := .error (errOr msg "Failed to update profile")
                muts := [.updatePassword uid] }
          | none =>
              { status := 200, body := .data uid
                muts := [.updatePassword uid, .updateProfile uid] }
    else
      match env.updateProfileError with
      | some msg =>
          { status := 400
            body := .error (errOr msg "Failed to update profile")
            muts := [] }
      | none =>
          { status := 200, body := .data uid, muts := [.updateProfile uid] }

/-- `deleteUser`: require an id, delete the auth user. -/
def deleteUser (env : Env) (payload : Payload) : HttpResp :=
  if !(truthyS payload.id) then
    { status := 400, body := .error "id is required", muts := [] }
  else
    let uid := (payload.id).getD ""
    match env.deleteError with
    | some msg =>
        { status := 400, body := .error (errOr msg "Failed to delete user")
          muts := [] }
    | none =>
        { status := 200, body := .data uid, muts := [.deleteAuthUser uid] }

/-- The exported `handler`: OPTIONS preflight, method gate, admin check,
then dispatch.  The `try/catch` 500 branch is unreachable in this
embedding because the embedded store calls return values instead of
throwing. -/
def handler (req : AdminReq) (env : Env) : HttpResp :=
  match req.method with
  | .OPTIONS => { status := 204, body := .empty, muts := [] }
  | .POST =>
      match ensureAdmin (getTokenFromRequest req.authorization) env with
      | .error msg => { status := 401, body := .error msg, muts := [] }
      | .ok _ => createUser env req.body
  | .PUT =>
      match ensureAdmin (getTokenFromRequest req.authorization) env with
      | .error msg => { status := 401, body := .error msg, muts := [] }
      | .ok _ => updateUser env req.body
  | .DELETE =>
      match ensureAdmin (getTokenFromRequest req.authorization) env with
      | .error msg => { status := 401, body := .error msg, muts := [] }
      | .ok _ => deleteUser env req.body
  | .other _ => { status := 405, body := .error "Method not allowed", muts := [] }

/- ### Auxiliary definitions for stating the properties -/

/-- The candidate set as the specification words it: the pool minus exactly
those ids that carry a non-null, non-undefined answer in some prior
attempt; an id present only with a null/undefined value stays a
candidate.  Stated for comparison with `availableQuestions`, the set the
code computes. -/
def specCandidates (pool : List Question)
    (previousAttempts : List (Option AnswerMap)) : List Question :=
  pool.filter (fun q =>
    !(previousAttempts.any (fun att =>
      match att with
      | some m => hasAnswer m q.id
      | none => false)))

/-- Erase the one field of a `SubmitResult` that depends on `timeSpent`. -/
def scrubTime (r : SubmitResult) : SubmitResult :=
  { r with attempt := { r.attempt with time_spent := 0 } }

/-- The mutation the claim associates with each accepted method. -/
def performs : Method → List Mut → Prop
  | .POST, muts => ∃ e, Mut.createAuthUser e ∈ muts ∧ ∃ i, Mut.insertProfile i ∈ muts
  | .PUT, muts => ∃ i, Mut.updateProfile i ∈ muts
  | .DELETE, muts => ∃ i, Mut.deleteAuthUser i ∈ muts
  | _, _ => True

/-- A two-question exam pool used by the concrete scenarios. -/
def qFirst : Question :=
  { id := "qA", question := "first?", option_a := "w", option_b := "x"
    option_c := "y", option_d := "z", correct_answer := Label.A
    explanation := "ea" }

/-- Second fixture question. -/
def qSecond : Question :=
  { id := "qB", question := "second?", option_a := "k", option_b := "l"
    option_c := "m", option_d := "n", correct_answer := Label.B
    explanation := "eb" }

/-- Third fixture question. -/
def qThird : Question :=
  { id := "qC", question := "third?", option_a := "p", option_b := "q"
    option_c := "r", option_d := "s", correct_answer := Label.C
    explanation := "ec" }

/-- A concrete randomized question used by the option-mapping scenario. -/
def rqFixed : RQuestion := randomizeQuestion (fun _ => 0) qFirst

/-- A request body with every field absent. -/
def payloadNone : Payload :=
  { id := none, email := none, password := none, fullName := none
    professionId := none, healthAuthorityId := none, dailyMcqLimit := none
    isActive := none }

/-- An environment that resolves no token and knows no profile. -/
def envDeny : Env :=
  { tokenUser := fun _ => none, roleOf := fun _ => none, createdUserId := ""
    createAuthError := none, insertProfileError := none, passwordError := none
    updateProfileError := none, deleteError := none }

/- ## Theorems -/

theorem swap_length {α : Type} (l : List α) (i j : Nat) :
    (swap l i j).length = l.length := by
  unfold swap
  cases hi : l[i]? <;> cases hj : l[j]? <;> simp

/-- Setting a position to its own current value leaves the list unchanged. -/
theorem set_getElem_self {α : Type} :
    ∀ (l : List α) (i : Nat) (hi : i < l.length), l.set i l[i] = l
  | _ :: _, 0, _ => rfl
  | b :: t, i + 1, hi => by
    have hi' : i < t.length := by simpa using hi
    simp [set_getElem_self t i hi']

/-- Moving the `k`-th element of a list to the front while overwriting its
old position is a permutation: `t[k] :: t.set k a ~ a :: t`. -/
theorem cons_set_perm {α : Type} :
    ∀ (t : List α) (k : Nat) (hk : k < t.length) (a : α),
      (t[k] :: t.set k a).Perm (a :: t)
  | b :: t, 0, _, a => by
    simpa using List.Perm.swap a b t
  | b :: t, k + 1, hk, a => by
    have hk' : k < t.length := by simpa using hk
    have h1 : (b :: t)[k + 1] :: (b :: t).set (k + 1) a
        = t[k] :: b :: t.set k a := by
      simp
    rw [h1]
    exact (List.Perm.swap b (t[k]) (t.set k a)).trans
      (((cons_set_perm t k hk' a).cons b).trans (List.Perm.swap a b t))

/-- A strict-index swap is a permutation. -/
theorem swap_perm_lt {α : Type} :
    ∀ (i : Nat) (l : List α) (j : Nat), i < j → (hj : j < l.length) →
      (swap l i j).Perm l
  | 0, b :: t, j + 1, _, hj => by
    have hj' : j < t.length := by simpa using hj
    have hset : swap (b :: t) 0 (j + 1) = t[j] :: t.set j b := by
      unfold swap
      simp [List.getElem?_eq_getElem hj']
    rw [hset]
    exact cons_set_perm t j hj' b
  | i + 1, b :: t, j + 1, hij, hj => by
    have hij' : i < j := by omega
    have hj' : j < t.length := by simpa using hj
    have hji : i < t.length := lt_trans hij' hj'
    have hset : swap (b :: t) (i + 1) (j + 1) = b :: swap t i j := by
      unfold swap
      simp [List.getElem?_eq_getElem hj', List.getElem?_eq_getElem hji]
    rw [hset]
    exact (swap_perm_lt i t j hij' hj').cons b

/-- Swapping two in-range positions of a list is a permutation. -/
theorem swap_perm {α : Type} (l : List α) (i j : Nat)
    (hi : i < l.length) (hj : j < l.length) : (swap l i j).Perm l := by
  rcases Nat.lt_trichotomy i j with h | h | h
  · exact swap_perm_lt i l j h hj
  · subst h
    unfold swap
    rw [List.getElem?_eq_getElem hi]
    simp only
    rw [List.set_set, set_getElem_self l i hi]
  · have hcomm : swap l i j = swap l j i := by
      unfold swap
      rw [List.getElem?_eq_getElem hi, List.getElem?_eq_getElem hj]
      exact List.set_comm _ _ _ (by omega)
    rw [hcomm]
    exact swap_perm_lt j l i h hi

theorem fyFrom_perm {α : Type} (rand : Nat → Nat) :
    ∀ (i : Nat) (l : List α), i < l.length → (fyFrom rand i l).Perm l
  | 0, l, _ => List.Perm.refl l
  | i + 1, l, h => by
    have hj : rand (i + 1) % (i + 2) < l.length :=
      lt_of_le_of_lt (Nat.le_of_lt_succ (Nat.mod_lt _ (by omega))) h
    have hlen : (swap l (i + 1) (rand (i + 1) % (i + 2))).length = l.length :=
      swap_length l _ _
    have hrec := fyFrom_perm rand i (swap l (i + 1) (rand (i + 1) % (i + 2)))
      (by omega)
    exact hrec.trans (swap_perm l _ _ h hj)

/-- The Fisher-Yates shuffle permutes its input. -/
theorem fisherYates_perm {α : Type} (rand : Nat → Nat) (l : List α) :
    (fisherYates rand l).Perm l := by
  unfold fisherYates
  cases l with
  | nil => exact List.Perm.refl _
  | cons a t =>
    exact fyFrom_perm rand _ _ (by simp)

theorem fisherYates_length {α : Type} (rand : Nat → Nat) (l : List α) :
    (fisherYates rand l).length = l.length :=
  (fisherYates_perm rand l).length_eq

theorem jsGet_def (m : AnswerMap) (k : String) : jsGet m k = jsLookup m k := rfl

/-- C6: for every attempt record inserted by `submitExam`, over any exam
question pool and any submitted answers map, the stored `correct_answers`
never exceeds the stored `total_questions`: the count of matching answers
cannot exceed the number of pool questions iterated. -/
theorem submit_correct_le_total (eid uid : String) (qs : List Question)
    (ans : AnswerMap) (t : Int) (lim : Option Int) (usage : Option Nat) :
    (submitExam eid uid qs ans t lim usage).attempt.correct_answers ≤
      (submitExam eid uid qs ans t lim usage).attempt.total_questions :=
  List.countP_le_length _

/-- C9: two `submitExam` invocations differing only in `timeSpent` agree on
everything — score, correct and answered counts, per-question results,
batch info, overall percentage, the inserted attempt row apart from its
`time_spent` field, and the daily-usage write; `timeSpent` only lands in
the stored `time_spent`, so a late submission is scored exactly like a
timely one. -/
theorem submit_time_only_stored (eid uid : String) (qs : List Question)
    (ans : AnswerMap) (t1 t2 : Int) (lim : Option Int) (usage : Option Nat) :
    scrubTime (submitExam eid uid qs ans t1 lim usage) =
      scrubTime (submitExam eid uid qs ans t2 lim usage)
    ∧ (submitExam eid uid qs ans t1 lim usage).attempt.time_spent = t1 :=
  ⟨rfl, rfl⟩

/-- C10: every submission advances the (user, today) daily usage counter by
exactly the number of pool questions whose submitted answer is neither
null nor undefined — updating today's row if it exists, else inserting a
new one with that count. -/
theorem submit_usage_advance (eid uid : String) (qs : List Question)
    (ans : AnswerMap) (t : Int) (lim : Option Int) (usage : Option Nat) :
    (submitExam eid uid qs ans t lim usage).usageWrite =
      (match usage with
       | some c => UsageWrite.update (c + qs.countP (fun q => hasAnswer ans q.id))
       | none => UsageWrite.insert (qs.countP (fun q => hasAnswer ans q.id))) := by
  cases usage <;> rfl

/-- C7: for an exam pool of exactly the two questions `qFirst` and `qSecond`
and one prior attempt answering only `qFirst`, `getExam` offers exactly
the singleton candidate set containing `qSecond`, whatever the random
draws. -/
theorem getExam_two_question_example (qrand : Nat → Nat) (orand : Nat → Nat → Nat) :
    ∃ r, getExam [qFirst, qSecond] [some [("qA", some Label.A)]] none none
        qrand orand = .ok r
      ∧ r.questions.map RQuestion.id = ["qB"] :=
  ⟨_, rfl, rfl⟩

theorem mem_foldl_keys :
    ∀ (prev : List (Option AnswerMap)) (acc : List String) (x : String),
      (x ∈ prev.foldl
        (fun s att =>
          match att with
          | some answers => s ++ jsKeys answers
          | none => s) acc)
      ↔ x ∈ acc ∨ ∃ mm : AnswerMap, some mm ∈ prev ∧ x ∈ jsKeys mm
  | [], acc, x => by simp
  | none :: t, acc, x => by
      rw [List.foldl_cons]
      rw [mem_foldl_keys t acc x]
      simp
  | some m :: t, acc, x => by
      rw [List.foldl_cons]
      rw [mem_foldl_keys t (acc ++ jsKeys m) x]
      simp only [List.mem_append, List.mem_cons, Option.some.injEq]
      constructor
      · rintro ((h | h) | ⟨mm, hmm, hx⟩)
        · exact Or.inl h
        · exact Or.inr ⟨m, Or.inl rfl, h⟩
        · exact Or.inr ⟨mm, Or.inr hmm, hx⟩
      · rintro (h | ⟨mm, (rfl | hmm), hx⟩)
        · exact Or.inl (Or.inl h)
        · exact Or.inl (Or.inr hx)
        · exact Or.inr ⟨mm, hmm, hx⟩

/-- An id is in `answeredQuestionIds` iff it is a key of some prior
attempt's (non-null) answers object, whatever the stored value. -/
theorem mem_answeredIds (prev : List (Option AnswerMap)) (x : String) :
    x ∈ answeredIds prev ↔ ∃ mm : AnswerMap, some mm ∈ prev ∧ x ∈ jsKeys mm := by
  unfold answeredIds
  rw [mem_foldl_keys]
  simp

theorem jsGet_eq_none_iff (m : AnswerMap) (k : String) :
    jsGet m k = none ↔ k ∉ jsKeys m := by
  unfold jsGet jsKeys
  simp only [Option.map_eq_none', List.find?_eq_none, decide_eq_true_eq,
    List.mem_dedup, List.mem_map]
  constructor
  · rintro h ⟨p, hp, rfl⟩
    exact h p hp rfl
  · rintro h p hp rfl
    exact h ⟨p, hp, rfl⟩

/-- C2: if the pool is non-empty and the ids collected from the prior
attempts' answer maps cover the whole pool, `getExam` throws the
"already completed" error and returns no question set. -/
theorem getExam_already_completed (pool : List Question)
    (prev : List (Option AnswerMap)) (lim : Option Int) (usage : Option Nat)
    (qrand : Nat → Nat) (orand : Nat → Nat → Nat)
    (hpool : pool ≠ [])
    (hcov : ∀ q ∈ pool, q.id ∈ answeredIds prev) :
    getExam pool prev lim usage qrand orand =
      .error "You have already completed all available questions for this exam." := by
  have h0 : pool.isEmpty = false := by
    simpa [List.isEmpty_iff] using hpool
  have h1 : availableQuestions pool prev = [] := by
    unfold availableQuestions
    rw [List.filter_eq_nil_iff]
    intro q hq
    simp [hcov q hq]
  unfold getExam
  rw [h0]
  simp [h1]

/-- C2 witness: a one-question pool whose only question was answered before. -/
theorem getExam_already_completed_witness :
    getExam [qFirst] [some [("qA", some Label.A)]] none none
        (fun _ => 0) (fun _ _ => 0) =
      .error "You have already completed all available questions for this exam." :=
  getExam_already_completed [qFirst] [some [("qA", some Label.A)]] none none
    (fun _ => 0) (fun _ _ => 0) (by decide) (by decide)

/-- C1 counterexample: with a two-question pool and one prior attempt whose
answers object maps the first id to `null`, the code excludes the first
question anyway (it keys on `Object.keys`, ignoring values), while the
claim's candidate set — the pool minus ids with non-null answers — keeps
both questions. -/
theorem getExam_null_valued_id_excluded :
    (getExam [qFirst, qSecond] [some [("qA", none)]] none none
        (fun _ => 0) (fun _ _ => 0)).toOption.map
          (fun r => r.questions.map RQuestion.id) = some ["qB"]
    ∧ (specCandidates [qFirst, qSecond] [some [("qA", none)]]).map Question.id
        = ["qA", "qB"] :=
  ⟨rfl, rfl⟩

/-- C1 (amended): a question is a candidate iff it is in the pool and its id
is not a key of any prior attempt's answers object — ids present only
with a null/undefined value are excluded just like answered ones. -/
theorem available_iff_not_a_key (pool : List Question)
    (prev : List (Option AnswerMap)) (q : Question) :
    q ∈ availableQuestions pool prev ↔
      q ∈ pool ∧ ∀ mm : AnswerMap, some mm ∈ prev → jsGet mm q.id = none := by
  unfold availableQuestions
  rw [List.mem_filter]
  constructor
  · rintro ⟨hq, hf⟩
    rw [Bool.not_eq_true'] at hf
    refine ⟨hq, fun mm hmm => ?_⟩
    rw [jsGet_eq_none_iff]
    intro hk
    have hmem : q.id ∈ answeredIds prev := (mem_answeredIds prev q.id).2 ⟨mm, hmm, hk⟩
    have hc : (answeredIds prev).contains q.id = true :=
      List.contains_iff_exists_mem_beq.2 ⟨q.id, hmem, by simp⟩
    rw [hf] at hc
    exact Bool.false_ne_true hc
  · rintro ⟨hq, hall⟩
    refine ⟨hq, ?_⟩
    rw [Bool.not_eq_true']
    cases hc : (answeredIds prev).contains q.id with
    | false => rfl
    | true =>
        exfalso
        obtain ⟨y, hy, hbeq⟩ := List.contains_iff_exists_mem_beq.1 hc
        have hyq : q.id = y := by simpa using hbeq
        obtain ⟨mm, hmm, hk⟩ := (mem_answeredIds prev y).1 hy
        have hnone := hall mm hmm
        rw [jsGet_eq_none_iff] at hnone
        exact hnone (hyq ▸ hk)

/-- C1 (amended) witness: with one prior attempt keying an unrelated id, the
fixture question stays a candidate. -/
theorem available_iff_not_a_key_witness :
    qFirst ∈ availableQuestions [qFirst] [some [("zz", some Label.A)]] :=
  (available_iff_not_a_key [qFirst] [some [("zz", some Label.A)]] qFirst).mpr
    ⟨by decide, by
      intro mm hmm
      simp only [List.mem_singleton, Option.some.injEq] at hmm
      subst hmm
      decide⟩

/-- Option randomization keeps each question's id. -/
theorem randomizeQuestion_id (rand : Nat → Nat) (q : Question) :
    (randomizeQuestion rand q).id = q.id := rfl

theorem deliveredQuestions_length (qrand : Nat → Nat) (orand : Nat → Nat → Nat)
    (av : List Question) :
    (deliveredQuestions qrand orand av).length = av.length := by
  unfold deliveredQuestions
  rw [List.length_map, List.enum_length, fisherYates_length]

/-- Shuffling and option-randomizing keeps the multiset of question ids. -/
theorem deliveredQuestions_ids_perm (qrand : Nat → Nat) (orand : Nat → Nat → Nat)
    (av : List Question) :
    ((deliveredQuestions qrand orand av).map RQuestion.id).Perm
      (av.map Question.id) := by
  unfold deliveredQuestions
  rw [List.map_map]
  have h : (RQuestion.id ∘ fun p : Nat × Question => randomizeQuestion (orand p.1) p.2)
      = (Question.id ∘ Prod.snd) := rfl
  rw [h, ← List.map_map, List.enum_map_snd]
  exact (fisherYates_perm qrand av).map Question.id

theorem deliveredQuestions_mem (qrand : Nat → Nat) (orand : Nat → Nat → Nat)
    (av : List Question) (rq : RQuestion)
    (h : rq ∈ deliveredQuestions qrand orand av) :
    ∃ k q, rq = randomizeQuestion (orand k) q := by
  unfold deliveredQuestions at h
  obtain ⟨⟨k, q⟩, _, rfl⟩ := List.mem_map.1 h
  exact ⟨k, q, rfl⟩

/-- `getExam` on a non-empty pool with candidates left, written out by the
value of the daily limit. -/
theorem getExam_eq (pool : List Question) (prev : List (Option AnswerMap))
    (lim : Option Int) (usage : Option Nat)
    (qrand : Nat → Nat) (orand : Nat → Nat → Nat)
    (h1 : pool.isEmpty = false)
    (h2 : (availableQuestions pool prev).isEmpty = false) :
    getExam pool prev lim usage qrand orand =
      (match lim with
       | none =>
          .ok { questions := deliveredQuestions qrand orand (availableQuestions pool prev)
                dailyUsage := { mcqCount := 0, limit := none, remaining := none } }
       | some limit =>
          if (limit - (usage.getD 0 : Nat) : Int) ≤ 0 then
            .error ("Daily MCQ limit reached. You have used all " ++ toString limit
              ++ " MCQs for today.")
          else
            .ok { questions :=
                    if (limit - (usage.getD 0 : Nat) : Int) <
                        ((deliveredQuestions qrand orand
                          (availableQuestions pool prev)).length : Int) then
                      (deliveredQuestions qrand orand
                        (availableQuestions pool prev)).take
                          (limit - (usage.getD 0 : Nat) : Int).toNat
                    else
                      deliveredQuestions qrand orand (availableQuestions pool prev)
                  dailyUsage := { mcqCount := usage.getD 0, limit := some limit
                                  remaining := some (limit - (usage.getD 0 : Nat)) } }) := by
  unfold getExam
  simp only [h1, h2]
  rfl

/-- `getExam` with a non-empty pool but no candidates left. -/
theorem getExam_avail_empty_eq (pool : List Question)
    (prev : List (Option AnswerMap)) (lim : Option Int) (usage : Option Nat)
    (qrand : Nat → Nat) (orand : Nat → Nat → Nat)
    (h1 : pool.isEmpty = false)
    (h2 : (availableQuestions pool prev).isEmpty = true) :
    getExam pool prev lim usage qrand orand =
      .error "You have already completed all available questions for this exam." := by
  unfold getExam
  simp [h1, h2]

/-- C4: with a non-null daily limit and `remaining = limit - today's count`:
a non-positive remaining throws the "Daily MCQ limit reached" error; a
positive remaining smaller than the candidate count truncates the
returned list to exactly `remaining` questions; and a remaining at least
the candidate count returns the full candidate list (same length, same
ids up to the shuffle's permutation). -/
theorem getExam_daily_quota (pool : List Question)
    (prev : List (Option AnswerMap)) (usage : Option Nat)
    (qrand : Nat → Nat) (orand : Nat → Nat → Nat) (L : Int)
    (hne : availableQuestions pool prev ≠ []) :
    ((L - (usage.getD 0 : Nat) : Int) ≤ 0 →
      getExam pool prev (some L) usage qrand orand =
        .error ("Daily MCQ limit reached. You have used all " ++ toString L
          ++ " MCQs for today."))
    ∧ (0 < (L - (usage.getD 0 : Nat) : Int) →
        (L - (usage.getD 0 : Nat) : Int) <
            ((availableQuestions pool prev).length : Int) →
        ∃ r, getExam pool prev (some L) usage qrand orand = .ok r ∧
          (r.questions.length : Int) = L - (usage.getD 0 : Nat))
    ∧ (0 < (L - (usage.getD 0 : Nat) : Int) →
        ((availableQuestions pool prev).length : Int) ≤
            (L - (usage.getD 0 : Nat) : Int) →
        ∃ r, getExam pool prev (some L) usage qrand orand = .ok r ∧
          r.questions.length = (availableQuestions pool prev).length ∧
          (r.questions.map RQuestion.id).Perm
            ((availableQuestions pool prev).map Question.id)) := by
  have hpoolne : pool ≠ [] := by
    intro h
    subst h
    exact hne rfl
  have hpool : pool.isEmpty = false := by
    simpa [List.isEmpty_iff] using hpoolne
  have hav : (availableQuestions pool prev).isEmpty = false := by
    simpa [List.isEmpty_iff] using hne
  have hlen : (deliveredQuestions qrand orand (availableQuestions pool prev)).length
      = (availableQuestions pool prev).length :=
    deliveredQuestions_length qrand orand _
  have hids : ((deliveredQuestions qrand orand
        (availableQuestions pool prev)).map RQuestion.id).Perm
      ((availableQuestions pool prev).map Question.id) :=
    deliveredQuestions_ids_perm qrand orand _
  have hstep : getExam pool prev (some L) usage qrand orand =
      (if (L - (usage.getD 0 : Nat) : Int) ≤ 0 then
        .error ("Daily MCQ limit reached. You have used all " ++ toString L
          ++ " MCQs for today.")
      else
        .ok { questions :=
                if (L - (usage.getD 0 : Nat) : Int) <
                    ((deliveredQuestions qrand orand
                      (availableQuestions pool prev)).length : Int) then
                  (deliveredQuestions qrand orand
                    (availableQuestions pool prev)).take
                      (L - (usage.getD 0 : Nat) : Int).toNat
                else
                  deliveredQuestions qrand orand (availableQuestions pool prev)
              dailyUsage := { mcqCount := usage.getD 0, limit := some L
                              remaining := some (L - (usage.getD 0 : Nat)) } }) :=
    getExam_eq pool prev (some L) usage qrand orand hpool hav
  refine ⟨?_, ?_, ?_⟩
  · intro hle
    rw [hstep, if_pos hle]
  · intro hpos hlt
    rw [hstep, if_neg (not_le.2 hpos), if_pos (by rw [hlen]; exact hlt)]
    refine ⟨_, rfl, ?_⟩
    simp only [List.length_take, hlen]
    have h1 : (L - (usage.getD 0 : Nat) : Int).toNat ≤
        (availableQuestions pool prev).length := by omega
    have h2 : min (L - (usage.getD 0 : Nat) : Int).toNat
        (availableQuestions pool prev).length
        = (L - (usage.getD 0 : Nat) : Int).toNat := Nat.min_eq_left h1
    rw [h2]
    omega
  · intro hpos hge
    rw [hstep, if_neg (not_le.2 hpos), if_neg (by rw [hlen]; exact not_lt.2 hge)]
    exact ⟨_, rfl, hlen, hids⟩

/-- C4 witness: a three-question pool, limit 2, one MCQ already used today:
remaining = 1 < 3 candidates, so exactly one question is returned; and
with the count already at the limit the quota error is thrown. -/
theorem getExam_daily_quota_witness :
    (∃ r, getExam [qFirst, qSecond, qThird] [] (some 2) (some 1)
        (fun _ => 0) (fun _ _ => 0) = .ok r ∧ (r.questions.length : Int) = 2 - 1)
    ∧ getExam [qFirst, qSecond, qThird] [] (some 2) (some 2)
        (fun _ => 0) (fun _ _ => 0) =
      .error ("Daily MCQ limit reached. You have used all " ++ toString (2 : Int)
        ++ " MCQs for today.") :=
  ⟨((getExam_daily_quota [qFirst, qSecond, qThird] [] (some 1)
      (fun _ => 0) (fun _ _ => 0) 2 (by decide)).2.1 (by decide) (by decide)),
   ((getExam_daily_quota [qFirst, qSecond, qThird] [] (some 2)
      (fun _ => 0) (fun _ _ => 0) 2 (by decide)).1 (by decide))⟩

/-- The forEach-built maps over any rearrangement of the four labels are
mutually inverse between positions 0-3 and labels A-D. -/
theorem buildMappings_inverse (ls : List Label)
    (h : ls.Perm [Label.A, Label.B, Label.C, Label.D]) :
    (∀ p : Nat, p < 4 →
      (jsLookup (buildMappings ls).1 p).bind (jsLookup (buildMappings ls).2)
        = some p)
    ∧ (∀ L : Label,
      (jsLookup (buildMappings ls).2 L).bind (jsLookup (buildMappings ls).1)
        = some L) := by
  have hlen : ls.length = 4 := h.length_eq
  rcases ls with _ | ⟨a, ls⟩
  · simp at hlen
  rcases ls with _ | ⟨b, ls⟩
  · simp at hlen
  rcases ls with _ | ⟨c, ls⟩
  · simp at hlen
  rcases ls with _ | ⟨d, ls⟩
  · simp at hlen
  rcases ls with _ | ⟨e, ls⟩
  · cases a <;> cases b <;> cases c <;> cases d <;>
      first
        | exact absurd h (by decide)
        | exact ⟨by decide, by decide⟩
  · simp at hlen

/-- The maps of any option-randomized question are mutually inverse. -/
theorem randomizeQuestion_mappings (rand : Nat → Nat) (q : Question) :
    (∀ p : Nat, p < 4 →
      (jsLookup (randomizeQuestion rand q).optionMapping p).bind
        (jsLookup (randomizeQuestion rand q).reverseMapping) = some p)
    ∧ (∀ L : Label,
      (jsLookup (randomizeQuestion rand q).reverseMapping L).bind
        (jsLookup (randomizeQuestion rand q).optionMapping) = some L) := by
  have hperm : ((fisherYates rand
      [(Label.A, q.option_a), (Label.B, q.option_b),
       (Label.C, q.option_c), (Label.D, q.option_d)]).map Prod.fst).Perm
      [Label.A, Label.B, Label.C, Label.D] := by
    have h := (fisherYates_perm rand
      [(Label.A, q.option_a), (Label.B, q.option_b),
       (Label.C, q.option_c), (Label.D, q.option_d)]).map Prod.fst
    simpa using h
  exact buildMappings_inverse _ hperm

/-- A question list returned by `getExam` consists of option-randomized
pool questions. -/
theorem getExam_ok_shape (pool : List Question)
    (prev : List (Option AnswerMap)) (lim : Option Int) (usage : Option Nat)
    (qrand : Nat → Nat) (orand : Nat → Nat → Nat) (r : GetExamResult)
    (hok : getExam pool prev lim usage qrand orand = .ok r)
    (rq : RQuestion) (hmem : rq ∈ r.questions) :
    ∃ k q, rq = randomizeQuestion (orand k) q := by
  by_cases h1 : pool.isEmpty
  · unfold getExam at hok
    rw [if_pos h1] at hok
    exact absurd hok (by simp)
  · have h1' : pool.isEmpty = false := by simpa using h1
    by_cases h2 : (availableQuestions pool prev).isEmpty
    · rw [getExam_avail_empty_eq pool prev lim usage qrand orand h1' h2] at hok
      exact absurd hok (by simp)
    · have h2' : (availableQuestions pool prev).isEmpty = false := by simpa using h2
      rw [getExam_eq pool prev lim usage qrand orand h1' h2'] at hok
      cases lim with
      | none =>
          rw [Except.ok.injEq] at hok
          subst hok
          exact deliveredQuestions_mem qrand orand _ rq hmem
      | some L =>
          simp only at hok
          split at hok
          · exact absurd hok (by simp)
          · rw [Except.ok.injEq] at hok
            subst hok
            have hmem' : rq ∈
                if (L - (usage.getD 0 : Nat) : Int) <
                    ((deliveredQuestions qrand orand
                      (availableQuestions pool prev)).length : Int) then
                  (deliveredQuestions qrand orand
                    (availableQuestions pool prev)).take
                      (L - (usage.getD 0 : Nat) : Int).toNat
                else
                  deliveredQuestions qrand orand (availableQuestions pool prev) :=
              hmem
            by_cases hlt : (L - (usage.getD 0 : Nat) : Int) <
                ((deliveredQuestions qrand orand
                  (availableQuestions pool prev)).length : Int)
            · rw [if_pos hlt] at hmem'
              exact deliveredQuestions_mem qrand orand _ rq
                (List.take_subset _ _ hmem')
            · rw [if_neg hlt] at hmem'
              exact deliveredQuestions_mem qrand orand _ rq hmem'

/-- C5: for every question returned by `getExam`, `optionMapping` and
`reverseMapping` are mutually inverse bijections between positions
0-3 and labels A-D: decoding through one and re-encoding through the
other round-trips, in both directions. -/
theorem getExam_mappings_inverse (pool : List Question)
    (prev : List (Option AnswerMap)) (lim : Option Int) (usage : Option Nat)
    (qrand : Nat → Nat) (orand : Nat → Nat → Nat) (r : GetExamResult)
    (hok : getExam pool prev lim usage qrand orand = .ok r)
    (rq : RQuestion) (hmem : rq ∈ r.questions) :
    (∀ p : Nat, p < 4 →
      (jsLookup rq.optionMapping p).bind (jsLookup rq.reverseMapping) = some p)
    ∧ (∀ L : Label,
      (jsLookup rq.reverseMapping L).bind (jsLookup rq.optionMapping) = some L) := by
  obtain ⟨k, q, rfl⟩ :=
    getExam_ok_shape pool prev lim usage qrand orand r hok rq hmem
  exact randomizeQuestion_mappings (orand k) q

/-- C5 witness: the round trip at position 0 of a concrete delivered
question. -/
theorem getExam_mappings_inverse_witness :
    (jsLookup rqFixed.optionMapping 0).bind (jsLookup rqFixed.reverseMapping)
      = some 0 :=
  (getExam_mappings_inverse [qFirst] [] none none (fun _ => 0) (fun _ _ => 0)
    _ rfl rqFixed (by decide)).1 0 (by decide)

theorem jsGet_cons_ne (k' : String) (v : Option Label) (m : AnswerMap)
    (k : String) (h : k' ≠ k) : jsGet ((k', v) :: m) k = jsGet m k := by
  unfold jsGet
  rw [List.find?_cons]
  simp [h]

theorem jsGet_cons_self (k : String) (v : Option Label) (m : AnswerMap) :
    jsGet ((k, v) :: m) k = some v := by
  unfold jsGet
  rw [List.find?_cons]
  simp

/-- Questions whose trimmed id differs from `k` never touch the entry for
`k` in the `mappedAnswers` accumulator. -/
theorem mapAnswers_foldl_skip (positional : List (String × Nat)) :
    ∀ (qs : List RQuestion) (m : AnswerMap) (k : String),
      (∀ q ∈ qs, q.id.trim ≠ k) →
      jsGet (qs.foldl (mapAnswersStep positional) m) k = jsGet m k
  | [], _, _, _ => rfl
  | q :: t, m, k, h => by
    rw [List.foldl_cons]
    rw [mapAnswers_foldl_skip positional t (mapAnswersStep positional m q) k
      (fun q' hq' => h q' (List.mem_cons_of_mem q hq'))]
    unfold mapAnswersStep
    cases hp : jsLookup positional q.id with
    | none => rfl
    | some p => exact jsGet_cons_ne _ _ _ _ (h q (List.mem_cons_self q t))

/-- Decoding semantics of `mappedAnswers`: when trimmed ids are distinct,
the stored value for a delivered question with a selected position is
exactly `optionMapping[position]`. -/
theorem mapAnswers_decodes (positional : List (String × Nat)) :
    ∀ (qs : List RQuestion) (m : AnswerMap) (rq : RQuestion),
      rq ∈ qs →
      (qs.map (fun x => x.id.trim)).Nodup →
      ∀ p : Nat, jsLookup positional rq.id = some p →
      jsGet (qs.foldl (mapAnswersStep positional) m) rq.id.trim
        = some (jsLookup rq.optionMapping p)
  | [], _, _, hmem, _, _, _ => absurd hmem (List.not_mem_nil _)
  | q :: t, m, rq, hmem, hnd, p, hp => by
    rw [List.foldl_cons]
    rcases List.mem_cons.1 hmem with rfl | hmem'
    · have hne : ∀ q' ∈ t, q'.id.trim ≠ rq.id.trim := by
        intro q' hq' heq
        have : rq.id.trim ∈ t.map (fun x => x.id.trim) :=
          List.mem_map.2 ⟨q', hq', heq⟩
        exact (List.nodup_cons.1 hnd).1 this
      rw [mapAnswers_foldl_skip positional t _ _ hne]
      unfold mapAnswersStep
      rw [hp]
      exact jsGet_cons_self _ _ _
    · exact mapAnswers_decodes positional t (mapAnswersStep positional m q) rq
        hmem' (List.nodup_cons.1 hnd).2 p hp

/-- C3 counterexample: the "correct over daily quota" percentage is capped
at 100 by `Math.min`: with two correct answers and a daily limit of 1 the
stored batch percentage is 100, not correct/quota = 200. -/
theorem submit_batch_percentage_capped :
    (submitExam "e" "u" [qFirst, qSecond]
        [("qA", some Label.A), ("qB", some Label.B)] 0 (some 1) none).correctAnswers
      = 2
    ∧ (submitExam "e" "u" [qFirst, qSecond]
        [("qA", some Label.A), ("qB", some Label.B)] 0 (some 1) none).batchInfo.map
          BatchInfo.percentage = some (min ((2 : Rat) / (1 : Rat) * 100) 100)
    ∧ min ((2 : Rat) / (1 : Rat) * 100) 100 ≠ (2 : Rat) / (1 : Rat) * 100 := by
  refine ⟨by decide, ?_, by norm_num⟩
  have hc : (submitExam "e" "u" [qFirst, qSecond]
      [("qA", some Label.A), ("qB", some Label.B)] 0 (some 1) none).correctAnswers
      = 2 := by decide
  simp only [submitExam] at hc ⊢
  rw [hc]
  norm_num

/-- C3 (amended): on submission the shuffled-position selections are decoded
through each question's `optionMapping` and the scoring counts matches
against the stored correct labels; the three derived percentages are
correct-over-daily-quota capped at 100 (`Math.min`), the (spec-modelled)
cumulative correct-over-answered overview, and correct-over-pool-size;
with a positive quota the first (capped) percentage is the primary
metric, without a quota the cumulative overview is. -/
theorem submit_three_metrics (eid uid : String) (pool : List Question)
    (rqs : List RQuestion) (positional : List (String × Nat)) (t : Int)
    (lim : Option Int) (usage : Option Nat) (cumC cumA : Nat)
    (R : SubmitResult)
    (hR : R = submitExam eid uid pool (mapAnswers rqs positional) t lim usage) :
    ((rqs.map (fun x => x.id.trim)).Nodup →
      ∀ rq ∈ rqs, ∀ p : Nat, jsLookup positional rq.id = some p →
        jsGet (mapAnswers rqs positional) rq.id.trim
          = some (jsLookup rq.optionMapping p))
    ∧ R.correctAnswers
        = pool.countP (fun q => answerMatches (mapAnswers rqs positional) q)
    ∧ (∀ l : Int, lim = some l → l ≠ 0 →
        R.batchInfo.map BatchInfo.percentage
          = some (min ((R.correctAnswers : Rat) / (l : Rat) * 100) 100))
    ∧ (0 < pool.length →
        R.overallPercentage = (R.correctAnswers : Rat) / (pool.length : Rat) * 100)
    ∧ (∀ l : Int, lim = some l → 0 < l →
        primaryMetric (dailyLimitPercentage lim R.correctAnswers)
            (attemptOverview cumC cumA)
          = min ((R.correctAnswers : Rat) / (l : Rat) * 100) 100)
    ∧ (lim = none →
        primaryMetric (dailyLimitPercentage lim R.correctAnswers)
            (attemptOverview cumC cumA)
          = attemptOverview cumC cumA) := by
  subst hR
  refine ⟨?_, rfl, ?_, ?_, ?_, ?_⟩
  · intro hnd rq hmem p hp
    exact mapAnswers_decodes positional rqs [] rq hmem hnd p hp
  · intro l hl hl0
    subst hl
    simp [submitExam, hl0]
  · intro hpos
    simp [submitExam, hpos]
  · intro l hl hpos
    subst hl
    simp [dailyLimitPercentage, primaryMetric, hpos]
  · intro hl
    subst hl
    simp [dailyLimitPercentage, primaryMetric]

/-- C3 witness: the capped quota percentage at a concrete submission built
from a decoded positional answer. -/
theorem submit_three_metrics_witness :
    (submitExam "e" "u" [qFirst] (mapAnswers [rqFixed] [("qA", 0)]) 0
        (some 2) none).batchInfo.map BatchInfo.percentage
      = some (min (((submitExam "e" "u" [qFirst]
          (mapAnswers [rqFixed] [("qA", 0)]) 0 (some 2) none).correctAnswers : Rat)
            / ((2 : Int) : Rat) * 100) 100) :=
  (submit_three_metrics "e" "u" [qFirst] [rqFixed] [("qA", 0)] 0 (some 2) none
    0 0 _ rfl).2.2.1 2 rfl (by decide)

/-- An accepted POST either creates the account (auth user + profile) with a
200 `{data}` response or fails with 400 `{error}`. -/
theorem createUser_spec (env : Env) (payload : Payload) :
    ((createUser env payload).status = 200
      ∧ (∃ d, (createUser env payload).body = Body.data d)
      ∧ performs Method.POST (createUser env payload).muts)
    ∨ ((createUser env payload).status = 400
      ∧ ∃ m, (createUser env payload).body = Body.error m) := by
  unfold createUser
  by_cases hv : (truthyS payload.email && truthyS payload.password
      && truthyS payload.fullName) = true
  · rw [hv]
    cases hca : env.createAuthError with
    | some m => simp
    | none =>
        cases hip : env.insertProfileError with
        | some m => simp
        | none => simp [performs]
  · rw [Bool.not_eq_true] at hv
    rw [hv]
    simp

/-- An accepted PUT either updates the profile (and the password when one is
sent) with a 200 `{data}` response or fails with 400 `{error}`. -/
theorem updateUser_spec (env : Env) (payload : Payload) :
    ((updateUser env payload).status = 200
      ∧ (∃ d, (updateUser env payload).body = Body.data d)
      ∧ performs Method.PUT (updateUser env payload).muts)
    ∨ ((updateUser env payload).status = 400
      ∧ ∃ m, (updateUser env payload).body = Body.error m) := by
  unfold updateUser
  by_cases hid : truthyS payload.id = true
  · rw [hid]
    by_cases hpw : truthyS payload.password = true
    · rw [hpw]
      cases hpe : env.passwordError with
      | some m => simp
      | none =>
          cases hup : env.updateProfileError with
          | some m => simp
          | none => simp [performs]
    · rw [Bool.not_eq_true] at hpw
      rw [hpw]
      cases hup : env.updateProfileError with
      | some m => simp
      | none => simp [performs]
  · rw [Bool.not_eq_true] at hid
    rw [hid]
    simp

/-- An accepted DELETE either deletes the auth user with a 200 `{data}`
response or fails with 400 `{error}`. -/
theorem deleteUser_spec (env : Env) (payload : Payload) :
    ((deleteUser env payload).status = 200
      ∧ (∃ d, (deleteUser env payload).body = Body.data d)
      ∧ performs Method.DELETE (deleteUser env payload).muts)
    ∨ ((deleteUser env payload).status = 400
      ∧ ∃ m, (deleteUser env payload).body = Body.error m) := by
  unfold deleteUser
  by_cases hid : truthyS payload.id = true
  · rw [hid]
    cases hde : env.deleteError with
    | some m => simp
    | none => simp [performs]
  · rw [Bool.not_eq_true] at hid
    rw [hid]
    simp

/-- C8: the admin-users handler accepts only POST/PUT/DELETE (plus OPTIONS
preflight, 204) and rejects any other method with 405 `{error}`; a
missing/invalid token or a non-ADMIN role yields 401 `{error}` with no
account mutation; an accepted request performs the corresponding
create/update/delete and answers 200 `{data}`, or fails with 400
`{error}`. -/
theorem handler_contract (req : AdminReq) (env : Env) :
    (∀ name, req.method = Method.other name →
      handler req env =
        { status := 405, body := .error "Method not allowed", muts := [] })
    ∧ (req.method = Method.OPTIONS →
      handler req env = { status := 204, body := .empty, muts := [] })
    ∧ (∀ msg,
        (req.method = Method.POST ∨ req.method = Method.PUT
          ∨ req.method = Method.DELETE) →
        ensureAdmin (getTokenFromRequest req.authorization) env = .error msg →
        handler req env = { status := 401, body := .error msg, muts := [] })
    ∧ (∀ uid,
        (req.method = Method.POST ∨ req.method = Method.PUT
          ∨ req.method = Method.DELETE) →
        ensureAdmin (getTokenFromRequest req.authorization) env = .ok uid →
        ((handler req env).status = 200
          ∧ (∃ d, (handler req env).body = Body.data d)
          ∧ performs req.method (handler req env).muts)
        ∨ ((handler req env).status = 400
          ∧ ∃ m, (handler req env).body = Body.error m)) := by
  refine ⟨?_, ?_, ?_, ?_⟩
  · intro name h
    simp [handler, h]
  · intro h
    simp [handler, h]
  · intro msg hm he
    rcases hm with h | h | h <;> simp [handler, h, he]
  · intro uid hm he
    rcases hm with h | h | h
    · have hh : handler req env = createUser env req.body := by
        simp [handler, h, he]
      rw [hh, h]
      exact createUser_spec env req.body
    · have hh : handler req env = updateUser env req.body := by
        simp [handler, h, he]
      rw [hh, h]
      exact updateUser_spec env req.body
    · have hh : handler req env = deleteUser env req.body := by
        simp [handler, h, he]
      rw [hh, h]
      exact deleteUser_spec env req.body

/-- C8 witness: a POST without a token is rejected with 401, an error body
and no mutation. -/
theorem handler_contract_witness :
    handler { method := Method.POST, authorization := none
              body := payloadNone } envDeny
      = { status := 401, body := .error "Missing access token", muts := [] } :=
  (handler_contract
      { method := Method.POST, authorization := none, body := payloadNone }
      envDeny).2.2.1 "Missing access token" (Or.inl rfl) rfl

end MockGulfMed
